import Mathlib

/-!
Verification of the rustscript code-generation core.

The development embeds the two emitters of the repository:
  * the textual emitter (crate `oxidescript`, `compiler/mod.rs`), which lowers
    the source AST to JavaScript source text while threading a
    `JavascriptCompilationOutput` metadata record, and
  * the structural emitter (crate `javascript-compiler`, `compile.rs`), which
    lowers the source AST to an oxc-style JavaScript AST.

The source AST itself (`oxidescript/src/parser/ast.rs`) is not part of the
sources available here; it is modelled from the spec's data model, with the
variant set and payload shapes corroborated by the pattern matches of the two
emitter files.  The textual emitter's `Expression` match has no arm for the
`If` and `For` variants, so its embedding is `Option`-valued: `none` models
the absence of a matching lowering rule for a construct.
-/

/-- Metadata record produced by every step of the textual emitter
(struct `JavascriptCompilationOutput` in `compiler/mod.rs`):
generated code, whether a trailing `;` may be appended, whether the fragment
is a multi-statement block, and the deferred value expression of a block. -/
structure JavascriptCompilationOutput where
  code : String
  semicolon_allowed : Bool := false
  is_block : Bool := false
  evaluates_to : Option String := none
deriving Repr, DecidableEq

/-- Embedding of `impl From<&str> for JavascriptCompilationOutput`:
the code is the given text and every other field is defaulted. -/
def outputOfStr (s : String) : JavascriptCompilationOutput :=
  { code := s }

/-- Unary operators of the source language (spec data model; matched in
`impl JavascriptCompile for UnaryOperator`). -/
inductive UnaryOperator where
  | Not
  | Minus
  | Plus
deriving Repr, DecidableEq

/-- Binary ("infix") operators of the source language (spec data model;
matched in the corresponding `JavascriptCompile` impl). -/
inductive InfixOperator where
  | Equal
  | NotEqual
  | GreaterThan
  | LessThan
  | GreaterThanEqual
  | LessThanEqual
  | Plus
  | Minus
  | Multiply
  | Divide
  | Modulo
deriving Repr, DecidableEq

/-- `impl JavascriptCompile for UnaryOperator`. -/
def UnaryOperator.compile : UnaryOperator → JavascriptCompilationOutput
  | .Not => outputOfStr "!"
  | .Minus => outputOfStr "-"
  | .Plus => outputOfStr "+"

/-- The `JavascriptCompile` impl for the binary operators. -/
def InfixOperator.compile : InfixOperator → JavascriptCompilationOutput
  | .Equal => outputOfStr "=="
  | .NotEqual => outputOfStr "!="
  | .GreaterThan => outputOfStr ">"
  | .LessThan => outputOfStr "<"
  | .GreaterThanEqual => outputOfStr ">="
  | .LessThanEqual => outputOfStr "<="
  | .Plus => outputOfStr "+"
  | .Minus => outputOfStr "-"
  | .Multiply => outputOfStr "*"
  | .Divide => outputOfStr "/"
  | .Modulo => outputOfStr "%"

/-- Literals (spec data model: numeric text kept verbatim, raw string text,
boolean), matched in `impl JavascriptCompile for Literal`. -/
inductive Literal where
  | NumberLiteral (n : String)
  | StringLiteral (s : String)
  | BooleanLiteral (b : Bool)
deriving Repr, DecidableEq

/-- `impl JavascriptCompile for Literal`: number text verbatim, string text
wrapped in one pair of double quotes, boolean via `to_string`; all three with
`semicolon_allowed = true`. -/
def Literal.compile : Literal → JavascriptCompilationOutput
  | .NumberLiteral n => { code := n, semicolon_allowed := true }
  | .StringLiteral s => { code := "\"" ++ s ++ "\"", semicolon_allowed := true }
  | .BooleanLiteral b =>
    { code := if b then "true" else "false", semicolon_allowed := true }

/-- Function parameter: a name and a declared type, the latter erased on
emission (spec data model; `Parameter` in the parser AST). -/
structure Parameter where
  name : String
  type_ : String
deriving Repr, DecidableEq

/-- `impl JavascriptCompile for Parameter`: only the name is emitted. -/
def Parameter.compile (p : Parameter) : JavascriptCompilationOutput :=
  { code := p.name }

/-- `impl JavascriptCompile for Vec<Parameter>`: the parameter names joined
with a comma-space separator. -/
def parametersCompile (ps : List Parameter) : JavascriptCompilationOutput :=
  { code := String.intercalate ", " (ps.map fun p => (Parameter.compile p).code) }

/-! Modelled from the spec: the source AST (`oxidescript/src/parser/ast.rs` is
not among the available sources).  The variant set and payload shapes follow
the spec's data model and the pattern matches of the two emitter files.
`IdentifierExpression` carries the identifier's text directly (`Identifier` is
a newtype over `String` in the source). -/
mutual
inductive Expression where
  | IdentifierExpression (ident : String)
  | LiteralExpression (lit : Literal)
  | UnaryExpression (op : UnaryOperator) (arg : Expression)
  | InfixExpression (op : InfixOperator) (arg0 : Expression) (arg1 : Expression)
  | ArrayExpression (exprs : List Expression)
  | CallExpression (callee : Expression) (args : List Expression)
  | MemberAccessExpression (obj : Expression) (field : String)
  | IndexExpression (obj : Expression) (index : Expression)
  | BlockExpression (block : Block)
  | IfExpression (condition : Expression) (thenBranch : Block) (elseBranch : Option Block)
  | ForExpression (binding : String) (iterable : Expression) (body : Block)

inductive Statement where
  | ExpressionStatement (expression : Expression) (has_semicolon : Bool)
  | DeclarationStatement (decl : Declaration)

inductive Declaration where
  | ConstDeclaration (ident : String) (expr : Expression)
  | LetDeclaration (ident : String) (expr : Expression)
  | FunctionDeclaration (name : String) (parameters : List Parameter) (body : Block)

inductive Block where
  | mk (statements : List Statement) (return_value : Option Expression)
end

/-- The statement list of a block. -/
def Block.statements : Block → List Statement
  | .mk statements _ => statements

/-- The optional trailing value expression of a block. -/
def Block.return_value : Block → Option Expression
  | .mk _ return_value => return_value

/-- A program is an ordered sequence of top-level statements
(`pub type Program = Vec<Statement>` in the parser AST). -/
abbrev Program := List Statement

/-- Embedding of `fn build_block` (`compiler/mod.rs`): the
block-materialization rule.  A non-block record, or a block record with no
deferred value, passes through unchanged; a block record with
`evaluates_to = V` is wrapped in the hoisted-variable form, and when `eval`
is set the suffix `;\nreturn_value` turns the whole construct into a value
expression. -/
def build_block (block_output : JavascriptCompilationOutput) (eval : Bool) : String :=
  if block_output.is_block then
    match block_output.evaluates_to with
    | some evaluates_to =>
      "let return_value = undefined;\n\x7b\n" ++ block_output.code ++
        "return_value = " ++ evaluates_to ++ ";\n\x7d" ++
        (if eval then ";\nreturn_value" else "")
    | none => block_output.code
  else
    block_output.code

/-! Embedding of the textual emitter (`compiler/mod.rs`).  Each function
mirrors one `JavascriptCompile` impl.  The `Option` layer records
partiality: the `Expression` match of the source has no arm for the
`IfExpression` and `ForExpression` variants, modelled by `none`;
elsewhere `none` only propagates. -/
mutual
def Expression.compile : Expression → Option JavascriptCompilationOutput
  | .IdentifierExpression ident =>
    some { code := ident, semicolon_allowed := true }
  | .LiteralExpression lit => some lit.compile
  | .UnaryExpression op arg =>
    match arg.compile with
    | none => none
    | some a =>
      some { code := op.compile.code ++ a.code,
             semicolon_allowed := a.semicolon_allowed }
  | .InfixExpression op arg0 arg1 =>
    match arg0.compile, arg1.compile with
    | some a0, some a1 =>
      some { code := a0.code ++ " " ++ op.compile.code ++ " " ++ a1.code,
             semicolon_allowed := a1.semicolon_allowed }
    | _, _ => none
  | .ArrayExpression exprs =>
    match exprListCompile exprs with
    | none => none
    | some os =>
      some { code := "[" ++ String.intercalate ", " (os.map JavascriptCompilationOutput.code) ++ "]",
             semicolon_allowed := true }
  | .CallExpression callee args =>
    match callee.compile, exprListCompile args with
    | some c, some os =>
      some { code := c.code ++ "(" ++ String.intercalate ", " (os.map JavascriptCompilationOutput.code) ++ ")",
             semicolon_allowed := true }
    | _, _ => none
  | .MemberAccessExpression obj field =>
    match obj.compile with
    | none => none
    | some o =>
      some { code := o.code ++ "." ++ field, semicolon_allowed := true }
  | .IndexExpression obj index =>
    match obj.compile, index.compile with
    | some o, some i =>
      some { code := build_block o true ++ "[" ++ i.code ++ "]",
             semicolon_allowed := true }
    | _, _ => none
  | .BlockExpression block =>
    match block with
    | .mk statements return_value =>
      match return_value with
      | some rv =>
        match rv.compile with
        | none => none
        | some rvOut =>
          match statements with
          | [] => some { code := "let return_value = " ++ rvOut.code ++ ";" }
          | _ =>
            match stmtListCompile statements with
            | none => none
            | some stmtsCode =>
              some { code := stmtsCode, semicolon_allowed := false,
                     is_block := true, evaluates_to := some rvOut.code }
      | none =>
        match statements with
        | [] => some { code := "let return_value = undefined;" }
        | _ =>
          match stmtListCompile statements with
          | none => none
          | some stmtsCode =>
            some { code := stmtsCode, semicolon_allowed := false,
                   is_block := true, evaluates_to := none }
  | .IfExpression _ _ _ => none
  | .ForExpression _ _ _ => none

def Statement.compile : Statement → Option JavascriptCompilationOutput
  | .ExpressionStatement expr _ =>
    match expr.compile with
    | none => none
    | some statement =>
      some { code := build_block statement false ++
               (if statement.semicolon_allowed then ";" else "") ++ "\n" }
  | .DeclarationStatement decl =>
    match decl.compile with
    | none => none
    | some statement =>
      some { code := build_block statement false ++
               (if statement.semicolon_allowed then ";" else "") ++ "\n" }

def Declaration.compile : Declaration → Option JavascriptCompilationOutput
  | .ConstDeclaration ident expr =>
    match expr.compile with
    | none => none
    | some e => some { code := "const " ++ ident ++ " = " ++ e.code ++ ";" }
  | .LetDeclaration ident expr =>
    match expr.compile with
    | none => none
    | some e => some { code := "let " ++ ident ++ " = " ++ e.code ++ ";" }
  | .FunctionDeclaration name parameters body =>
    match Block.compile body with
    | none => none
    | some b =>
      some { code := "function " ++ name ++ "(" ++ (parametersCompile parameters).code ++ ") " ++ b.code }

def Block.compile : Block → Option JavascriptCompilationOutput
  | .mk statements return_value =>
    match return_value with
    | some rv =>
      match stmtListCompile statements, rv.compile with
      | some stmtsCode, some rvOut =>
        some { code := "\x7b\n" ++ stmtsCode ++ "return " ++ rvOut.code ++ ";\n\x7d" }
      | _, _ => none
    | none =>
      match stmtListCompile statements with
      | none => none
      | some stmtsCode => some { code := "\x7b\n" ++ stmtsCode ++ "\x7d" }

def stmtListCompile : List Statement → Option String
  | [] => some ""
  | s :: rest =>
    match s.compile, stmtListCompile rest with
    | some o, some r => some (o.code ++ r)
    | _, _ => none

def exprListCompile : List Expression → Option (List JavascriptCompilationOutput)
  | [] => some []
  | e :: rest =>
    match e.compile, exprListCompile rest with
    | some o, some os => some (o :: os)
    | _, _ => none
end

/-- `impl JavascriptCompile for Program`: the statements are compiled in
order and their codes concatenated (the `FromIterator` impl), every other
field of the collected record defaulting. -/
def Program.compile (p : Program) : Option JavascriptCompilationOutput :=
  match stmtListCompile p with
  | none => none
  | some code => some { code := code }

/-- Entry point `JavascriptCompiler::compile`: the code of the compiled
program. -/
def JavascriptCompiler.compile (program : Program) : Option String :=
  (Program.compile program).map JavascriptCompilationOutput.code

/-- The metadata record a statement's own compilation starts from: the
compiled inner expression of an `ExpressionStatement` or the compiled inner
declaration of a `DeclarationStatement` (the first `match` of
`Statement::compile`). -/
def statementInner : Statement → Option JavascriptCompilationOutput
  | .ExpressionStatement expr _ => expr.compile
  | .DeclarationStatement decl => decl.compile

/-- The compiled records of a statement list, position by position (`none`
as soon as one statement fails to compile). -/
def compiledStatements : List Statement → Option (List JavascriptCompilationOutput)
  | [] => some []
  | s :: rest =>
    match s.compile, compiledStatements rest with
    | some o, some os => some (o :: os)
    | _, _ => none

/-! Erasure of the `has_semicolon` field of every expression statement in a
tree, used to state that the textual emitter never reads that field. -/
mutual
def Expression.eraseSemi : Expression → Expression
  | .IdentifierExpression i => .IdentifierExpression i
  | .LiteralExpression l => .LiteralExpression l
  | .UnaryExpression op a => .UnaryExpression op a.eraseSemi
  | .InfixExpression op a b => .InfixExpression op a.eraseSemi b.eraseSemi
  | .ArrayExpression es => .ArrayExpression (exprListEraseSemi es)
  | .CallExpression c args => .CallExpression c.eraseSemi (exprListEraseSemi args)
  | .MemberAccessExpression o f => .MemberAccessExpression o.eraseSemi f
  | .IndexExpression o i => .IndexExpression o.eraseSemi i.eraseSemi
  | .BlockExpression b => .BlockExpression b.eraseSemi
  | .IfExpression c t e =>
    .IfExpression c.eraseSemi t.eraseSemi (optionBlockEraseSemi e)
  | .ForExpression bd it bo => .ForExpression bd it.eraseSemi bo.eraseSemi

def Statement.eraseSemi : Statement → Statement
  | .ExpressionStatement e _ => .ExpressionStatement e.eraseSemi false
  | .DeclarationStatement d => .DeclarationStatement d.eraseSemi

def Declaration.eraseSemi : Declaration → Declaration
  | .ConstDeclaration i e => .ConstDeclaration i e.eraseSemi
  | .LetDeclaration i e => .LetDeclaration i e.eraseSemi
  | .FunctionDeclaration n ps b => .FunctionDeclaration n ps b.eraseSemi

def Block.eraseSemi : Block → Block
  | .mk stmts rv => .mk (stmtListEraseSemi stmts) (optionExprEraseSemi rv)

def stmtListEraseSemi : List Statement → List Statement
  | [] => []
  | s :: r => s.eraseSemi :: stmtListEraseSemi r

def exprListEraseSemi : List Expression → List Expression
  | [] => []
  | e :: r => e.eraseSemi :: exprListEraseSemi r

def optionExprEraseSemi : Option Expression → Option Expression
  | none => none
  | some e => some e.eraseSemi

def optionBlockEraseSemi : Option Block → Option Block
  | none => none
  | some b => some b.eraseSemi
end

/-! Syntactic predicate: a tree is free of If and For expressions — the two
variants the textual emitter's match does not cover. -/
mutual
def Expression.noIfFor : Expression → Bool
  | .IdentifierExpression _ => true
  | .LiteralExpression _ => true
  | .UnaryExpression _ a => a.noIfFor
  | .InfixExpression _ a b => a.noIfFor && b.noIfFor
  | .ArrayExpression es => exprListNoIfFor es
  | .CallExpression c args => c.noIfFor && exprListNoIfFor args
  | .MemberAccessExpression o _ => o.noIfFor
  | .IndexExpression o i => o.noIfFor && i.noIfFor
  | .BlockExpression b => b.noIfFor
  | .IfExpression _ _ _ => false
  | .ForExpression _ _ _ => false

def Statement.noIfFor : Statement → Bool
  | .ExpressionStatement e _ => e.noIfFor
  | .DeclarationStatement d => d.noIfFor

def Declaration.noIfFor : Declaration → Bool
  | .ConstDeclaration _ e => e.noIfFor
  | .LetDeclaration _ e => e.noIfFor
  | .FunctionDeclaration _ _ b => b.noIfFor

def Block.noIfFor : Block → Bool
  | .mk stmts rv => stmtListNoIfFor stmts && optionExprNoIfFor rv

def optionExprNoIfFor : Option Expression → Bool
  | none => true
  | some v => v.noIfFor

def stmtListNoIfFor : List Statement → Bool
  | [] => true
  | s :: r => s.noIfFor && stmtListNoIfFor r

def exprListNoIfFor : List Expression → Bool
  | [] => true
  | e :: r => e.noIfFor && exprListNoIfFor r
end

/-- Source position of a target-AST node (`oxc::span::Span`): byte offsets. -/
structure Span where
  lo : Nat
  hi : Nat
deriving Repr, DecidableEq

/-- The synthetic empty span `Span::new(0, 0)` attached to every constructed
target node. -/
def Span.synthetic : Span := ⟨0, 0⟩

/-- Whether a span is the synthetic empty span. -/
def Span.isSynthetic (s : Span) : Bool := s.lo == 0 && s.hi == 0

/-- `oxc::ast::ast::VariableDeclarationKind`, restricted to the two kinds the
structural emitter constructs. -/
inductive VariableDeclarationKind where
  | Const
  | Let
deriving Repr, DecidableEq

/-! Target AST built by the structural emitter, restricted to the node shapes
`compile.rs` and its conversion submodules construct; every node carries the
source-position span it was built with.  Parameters are kept as their names
(the declared types are erased). -/
mutual
inductive OxcExpression where
  | identifierReference (span : Span) (name : String)
  | numericLiteral (span : Span) (raw : String)
  | stringLiteral (span : Span) (value : String)
  | booleanLiteral (span : Span) (value : Bool)
  | unaryExpression (span : Span) (op : UnaryOperator) (argument : OxcExpression)
  | binaryExpression (span : Span) (op : InfixOperator) (left : OxcExpression) (right : OxcExpression)
  | arrayExpression (span : Span) (elements : List OxcExpression)
  | callExpression (span : Span) (callee : OxcExpression) (arguments : List OxcExpression)
  | staticMemberExpression (span : Span) (object : OxcExpression) (property : String)
  | computedMemberExpression (span : Span) (object : OxcExpression) (index : OxcExpression)
  | arrowFunctionExpression (span : Span) (paramsSpan : Span) (bodySpan : Span) (body : List OxcStatement)

inductive OxcStatement where
  | expressionStatement (span : Span) (expression : OxcExpression)
  | variableDeclaration (span : Span) (kind : VariableDeclarationKind)
      (declaratorSpan : Span) (idSpan : Span) (name : String) (init : OxcExpression)
  | functionDeclaration (span : Span) (idSpan : Span) (name : String)
      (paramsSpan : Span) (params : List String) (bodySpan : Span) (body : List OxcStatement)
  | returnStatement (span : Span) (argument : Option OxcExpression)
  | ifStatement (span : Span) (test : OxcExpression)
      (consequentSpan : Span) (consequent : List OxcStatement)
      (alternateSpan : Span) (alternate : List OxcStatement)
  | forOfStatement (span : Span) (binding : String) (iterable : OxcExpression)
      (bodySpan : Span) (body : List OxcStatement)
end

/-- Target program node (`oxc::ast::ast::Program`): its span and body. -/
structure OxcProgram where
  span : Span
  body : List OxcStatement

/-- Embedding of `fn iife` (`compile.rs`): a zero-parameter arrow function
holding the given body, immediately called with zero arguments; every node
it builds carries the synthetic span. -/
def iife (body : List OxcStatement) : OxcExpression :=
  .callExpression Span.synthetic
    (.arrowFunctionExpression Span.synthetic Span.synthetic Span.synthetic body) []

/-! Embedding of the structural emitter.  The `Program` and `Statement`
conversions and `iife` follow `compile.rs` directly.  The expression-level
conversions are delegated by `compile.rs` to the submodules `block.rs`,
`conditional.rs`, `function.rs`, `ident.rs`, `index.rs`, `infix.rs`,
`literal.rs`, `loop.rs`, `member_access.rs` and `unary.rs`, which are not
among the available sources — those are Modelled from the spec (§4.3):
node-for-node lowering with synthetic spans on every constructed node, a
value-producing block in expression position materialized as an
immediately-invoked niladic closure whose body is the block's statements
followed by a return node, and function bodies likewise statements plus a
return node. -/
mutual
def Expression.intoOxc : Expression → OxcExpression
  | .IdentifierExpression i => .identifierReference Span.synthetic i
  | .LiteralExpression (.NumberLiteral n) => .numericLiteral Span.synthetic n
  | .LiteralExpression (.StringLiteral s) => .stringLiteral Span.synthetic s
  | .LiteralExpression (.BooleanLiteral b) => .booleanLiteral Span.synthetic b
  | .UnaryExpression op a => .unaryExpression Span.synthetic op a.intoOxc
  | .InfixExpression op a b => .binaryExpression Span.synthetic op a.intoOxc b.intoOxc
  | .ArrayExpression es => .arrayExpression Span.synthetic (exprListIntoOxc es)
  | .CallExpression c args => .callExpression Span.synthetic c.intoOxc (exprListIntoOxc args)
  | .MemberAccessExpression o f => .staticMemberExpression Span.synthetic o.intoOxc f
  | .IndexExpression o i => .computedMemberExpression Span.synthetic o.intoOxc i.intoOxc
  | .BlockExpression b => iife (Block.intoOxcStatements b)
  | .IfExpression c t e =>
    iife [.ifStatement Span.synthetic c.intoOxc
      Span.synthetic (Block.intoOxcStatements t)
      Span.synthetic (optionBlockIntoOxcStatements e)]
  | .ForExpression bd it bo =>
    iife [.forOfStatement Span.synthetic bd it.intoOxc
      Span.synthetic (Block.intoOxcStatements bo)]

def Statement.intoOxc : Statement → OxcStatement
  | .ExpressionStatement e _ => .expressionStatement Span.synthetic e.intoOxc
  | .DeclarationStatement (.ConstDeclaration i e) =>
    .variableDeclaration Span.synthetic .Const Span.synthetic Span.synthetic i e.intoOxc
  | .DeclarationStatement (.LetDeclaration i e) =>
    .variableDeclaration Span.synthetic .Let Span.synthetic Span.synthetic i e.intoOxc
  | .DeclarationStatement (.FunctionDeclaration n ps b) =>
    .functionDeclaration Span.synthetic Span.synthetic n
      Span.synthetic (ps.map Parameter.name) Span.synthetic (Block.intoOxcStatements b)

def Block.intoOxcStatements : Block → List OxcStatement
  | .mk stmts rv =>
    stmtListIntoOxc stmts ++ optionReturnIntoOxc rv

def optionReturnIntoOxc : Option Expression → List OxcStatement
  | none => []
  | some v => [.returnStatement Span.synthetic (some v.intoOxc)]

def stmtListIntoOxc : List Statement → List OxcStatement
  | [] => []
  | s :: r => s.intoOxc :: stmtListIntoOxc r

def exprListIntoOxc : List Expression → List OxcExpression
  | [] => []
  | e :: r => e.intoOxc :: exprListIntoOxc r

def optionBlockIntoOxcStatements : Option Block → List OxcStatement
  | none => []
  | some b => Block.intoOxcStatements b
end

/-- Embedding of `IntoOxc for Program` (`compile.rs`): a program node with
the synthetic span whose body is the converted statements in order. -/
def Program.intoOxc (p : Program) : OxcProgram :=
  ⟨Span.synthetic, stmtListIntoOxc p⟩

/-! Recursive check that every span in a target tree is the synthetic empty
span. -/
mutual
def OxcExpression.spansSynthetic : OxcExpression → Bool
  | .identifierReference sp _ => sp.isSynthetic
  | .numericLiteral sp _ => sp.isSynthetic
  | .stringLiteral sp _ => sp.isSynthetic
  | .booleanLiteral sp _ => sp.isSynthetic
  | .unaryExpression sp _ a => sp.isSynthetic && a.spansSynthetic
  | .binaryExpression sp _ a b => sp.isSynthetic && a.spansSynthetic && b.spansSynthetic
  | .arrayExpression sp es => sp.isSynthetic && oxcExprListSpansSynthetic es
  | .callExpression sp c args =>
    sp.isSynthetic && c.spansSynthetic && oxcExprListSpansSynthetic args
  | .staticMemberExpression sp o _ => sp.isSynthetic && o.spansSynthetic
  | .computedMemberExpression sp o i =>
    sp.isSynthetic && o.spansSynthetic && i.spansSynthetic
  | .arrowFunctionExpression sp ps bs body =>
    sp.isSynthetic && ps.isSynthetic && bs.isSynthetic && oxcStmtListSpansSynthetic body

def OxcStatement.spansSynthetic : OxcStatement → Bool
  | .expressionStatement sp e => sp.isSynthetic && e.spansSynthetic
  | .variableDeclaration sp _ dsp isp _ init =>
    sp.isSynthetic && dsp.isSynthetic && isp.isSynthetic && init.spansSynthetic
  | .functionDeclaration sp isp _ psp _ bsp body =>
    sp.isSynthetic && isp.isSynthetic && psp.isSynthetic && bsp.isSynthetic &&
      oxcStmtListSpansSynthetic body
  | .returnStatement sp arg => sp.isSynthetic && oxcOptionExprSpansSynthetic arg
  | .ifStatement sp t csp cs asp alt =>
    sp.isSynthetic && t.spansSynthetic && csp.isSynthetic &&
      oxcStmtListSpansSynthetic cs && asp.isSynthetic && oxcStmtListSpansSynthetic alt
  | .forOfStatement sp _ it bsp body =>
    sp.isSynthetic && it.spansSynthetic && bsp.isSynthetic &&
      oxcStmtListSpansSynthetic body

def oxcOptionExprSpansSynthetic : Option OxcExpression → Bool
  | none => true
  | some e => e.spansSynthetic

def oxcExprListSpansSynthetic : List OxcExpression → Bool
  | [] => true
  | e :: r => e.spansSynthetic && oxcExprListSpansSynthetic r

def oxcStmtListSpansSynthetic : List OxcStatement → Bool
  | [] => true
  | s :: r => s.spansSynthetic && oxcStmtListSpansSynthetic r
end

/-- Whether every span of a target program, node by node, is the synthetic
empty span. -/
def OxcProgram.spansSynthetic (p : OxcProgram) : Bool :=
  p.span.isSynthetic && oxcStmtListSpansSynthetic p.body

/-! The textual emitter is invariant under `has_semicolon` erasure, node kind
by node kind. -/
mutual
theorem exprCompile_eraseSemi (e : Expression) :
    (Expression.eraseSemi e).compile = e.compile := by
  cases e with
  | IdentifierExpression i => rfl
  | LiteralExpression l => rfl
  | UnaryExpression op a =>
    simp [Expression.eraseSemi, Expression.compile, exprCompile_eraseSemi a]
  | InfixExpression op a b =>
    simp [Expression.eraseSemi, Expression.compile, exprCompile_eraseSemi a,
      exprCompile_eraseSemi b]
  | ArrayExpression es =>
    simp [Expression.eraseSemi, Expression.compile, exprListCompile_eraseSemi es]
  | CallExpression c args =>
    simp [Expression.eraseSemi, Expression.compile, exprCompile_eraseSemi c,
      exprListCompile_eraseSemi args]
  | MemberAccessExpression o f =>
    simp [Expression.eraseSemi, Expression.compile, exprCompile_eraseSemi o]
  | IndexExpression o i =>
    simp [Expression.eraseSemi, Expression.compile, exprCompile_eraseSemi o,
      exprCompile_eraseSemi i]
  | BlockExpression b =>
    cases b with
    | mk stmts rv =>
      cases rv with
      | none =>
        cases stmts with
        | nil => rfl
        | cons s rest =>
          have hl := stmtListCompile_eraseSemi (s :: rest)
          simp only [stmtListEraseSemi] at hl
          simp [Expression.eraseSemi, Block.eraseSemi, optionExprEraseSemi,
            stmtListEraseSemi, Expression.compile, hl]
      | some v =>
        cases stmts with
        | nil =>
          simp [Expression.eraseSemi, Block.eraseSemi, optionExprEraseSemi,
            stmtListEraseSemi, Expression.compile, exprCompile_eraseSemi v]
        | cons s rest =>
          have hl := stmtListCompile_eraseSemi (s :: rest)
          simp only [stmtListEraseSemi] at hl
          simp [Expression.eraseSemi, Block.eraseSemi, optionExprEraseSemi,
            stmtListEraseSemi, Expression.compile, hl, exprCompile_eraseSemi v]
  | IfExpression c t e => rfl
  | ForExpression bd it bo => rfl

theorem stmtCompile_eraseSemi (s : Statement) :
    (Statement.eraseSemi s).compile = s.compile := by
  cases s with
  | ExpressionStatement e h =>
    simp [Statement.eraseSemi, Statement.compile, exprCompile_eraseSemi e]
  | DeclarationStatement d =>
    simp [Statement.eraseSemi, Statement.compile, declCompile_eraseSemi d]

theorem declCompile_eraseSemi (d : Declaration) :
    (Declaration.eraseSemi d).compile = d.compile := by
  cases d with
  | ConstDeclaration i e =>
    simp [Declaration.eraseSemi, Declaration.compile, exprCompile_eraseSemi e]
  | LetDeclaration i e =>
    simp [Declaration.eraseSemi, Declaration.compile, exprCompile_eraseSemi e]
  | FunctionDeclaration n ps b =>
    simp [Declaration.eraseSemi, Declaration.compile, blockCompile_eraseSemi b]

theorem blockCompile_eraseSemi (b : Block) :
    (Block.eraseSemi b).compile = b.compile := by
  cases b with
  | mk stmts rv =>
    cases rv with
    | none =>
      simp [Block.eraseSemi, optionExprEraseSemi, Block.compile,
        stmtListCompile_eraseSemi stmts]
    | some v =>
      simp [Block.eraseSemi, optionExprEraseSemi, Block.compile,
        stmtListCompile_eraseSemi stmts, exprCompile_eraseSemi v]

theorem stmtListCompile_eraseSemi (l : List Statement) :
    stmtListCompile (stmtListEraseSemi l) = stmtListCompile l := by
  cases l with
  | nil => rfl
  | cons s rest =>
    simp [stmtListEraseSemi, stmtListCompile, stmtCompile_eraseSemi s,
      stmtListCompile_eraseSemi rest]

theorem exprListCompile_eraseSemi (l : List Expression) :
    exprListCompile (exprListEraseSemi l) = exprListCompile l := by
  cases l with
  | nil => rfl
  | cons e rest =>
    simp [exprListEraseSemi, exprListCompile, exprCompile_eraseSemi e,
      exprListCompile_eraseSemi rest]
end

/-- C9: the textual emitter's output does not depend on the `has_semicolon`
field of expression statements — two programs whose trees agree after
erasing every `has_semicolon` flag compile to identical output text. -/
theorem has_semicolon_noninterference (p q : Program)
    (h : stmtListEraseSemi p = stmtListEraseSemi q) :
    JavascriptCompiler.compile p = JavascriptCompiler.compile q := by
  unfold JavascriptCompiler.compile Program.compile
  rw [← stmtListCompile_eraseSemi p, h, stmtListCompile_eraseSemi q]

/-- Witness for C9: the statement `x;` with `has_semicolon` true versus
false — same erasure, same compiled text. -/
theorem has_semicolon_noninterference_witness :
    stmtListEraseSemi [Statement.ExpressionStatement (.IdentifierExpression "x") true] =
      stmtListEraseSemi [Statement.ExpressionStatement (.IdentifierExpression "x") false] ∧
    JavascriptCompiler.compile
        [.ExpressionStatement (.IdentifierExpression "x") true] =
      JavascriptCompiler.compile
        [.ExpressionStatement (.IdentifierExpression "x") false] :=
  ⟨by rfl,
   has_semicolon_noninterference
     [.ExpressionStatement (.IdentifierExpression "x") true]
     [.ExpressionStatement (.IdentifierExpression "x") false] (by rfl)⟩

/-! The textual emitter succeeds exactly on trees free of If and For
expressions, node kind by node kind. -/
mutual
theorem exprCompile_isSome (e : Expression) :
    (Expression.compile e).isSome = Expression.noIfFor e := by
  cases e with
  | IdentifierExpression i => rfl
  | LiteralExpression l => rfl
  | UnaryExpression op a =>
    cases h : a.compile <;>
      simp [Expression.compile, Expression.noIfFor, ← exprCompile_isSome a, h]
  | InfixExpression op a b =>
    cases h0 : a.compile <;> cases h1 : b.compile <;>
      simp [Expression.compile, Expression.noIfFor, ← exprCompile_isSome a,
        ← exprCompile_isSome b, h0, h1]
  | ArrayExpression es =>
    cases h : exprListCompile es <;>
      simp [Expression.compile, Expression.noIfFor, ← exprListCompile_isSome es, h]
  | CallExpression c args =>
    cases h0 : c.compile <;> cases h1 : exprListCompile args <;>
      simp [Expression.compile, Expression.noIfFor, ← exprCompile_isSome c,
        ← exprListCompile_isSome args, h0, h1]
  | MemberAccessExpression o f =>
    cases h : o.compile <;>
      simp [Expression.compile, Expression.noIfFor, ← exprCompile_isSome o, h]
  | IndexExpression o i =>
    cases h0 : o.compile <;> cases h1 : i.compile <;>
      simp [Expression.compile, Expression.noIfFor, ← exprCompile_isSome o,
        ← exprCompile_isSome i, h0, h1]
  | BlockExpression b =>
    cases b with
    | mk stmts rv =>
      cases rv with
      | none =>
        cases stmts with
        | nil => rfl
        | cons s rest =>
          cases hl : stmtListCompile (s :: rest) <;>
            simp [Expression.compile, Expression.noIfFor, Block.noIfFor,
              optionExprNoIfFor, ← stmtListCompile_isSome (s :: rest), hl]
      | some v =>
        cases stmts with
        | nil =>
          cases hv : v.compile <;>
            simp [Expression.compile, Expression.noIfFor, Block.noIfFor,
              optionExprNoIfFor, stmtListNoIfFor, ← exprCompile_isSome v, hv]
        | cons s rest =>
          cases hv : v.compile <;> cases hl : stmtListCompile (s :: rest) <;>
            simp [Expression.compile, Expression.noIfFor, Block.noIfFor,
              optionExprNoIfFor, ← exprCompile_isSome v,
              ← stmtListCompile_isSome (s :: rest), hv, hl]
  | IfExpression c t e => rfl
  | ForExpression bd it bo => rfl

theorem stmtCompile_isSome (s : Statement) :
    (Statement.compile s).isSome = Statement.noIfFor s := by
  cases s with
  | ExpressionStatement e h =>
    cases he : e.compile <;>
      simp [Statement.compile, Statement.noIfFor, ← exprCompile_isSome e, he]
  | DeclarationStatement d =>
    cases hd : d.compile <;>
      simp [Statement.compile, Statement.noIfFor, ← declCompile_isSome d, hd]

theorem declCompile_isSome (d : Declaration) :
    (Declaration.compile d).isSome = Declaration.noIfFor d := by
  cases d with
  | ConstDeclaration i e =>
    cases he : e.compile <;>
      simp [Declaration.compile, Declaration.noIfFor, ← exprCompile_isSome e, he]
  | LetDeclaration i e =>
    cases he : e.compile <;>
      simp [Declaration.compile, Declaration.noIfFor, ← exprCompile_isSome e, he]
  | FunctionDeclaration n ps b =>
    cases hb : Block.compile b <;>
      simp [Declaration.compile, Declaration.noIfFor, ← blockCompile_isSome b, hb]

theorem blockCompile_isSome (b : Block) :
    (Block.compile b).isSome = Block.noIfFor b := by
  cases b with
  | mk stmts rv =>
    cases rv with
    | none =>
      cases hl : stmtListCompile stmts <;>
        simp [Block.compile, Block.noIfFor, optionExprNoIfFor,
          ← stmtListCompile_isSome stmts, hl]
    | some v =>
      cases hl : stmtListCompile stmts <;> cases hv : v.compile <;>
        simp [Block.compile, Block.noIfFor, optionExprNoIfFor,
          ← stmtListCompile_isSome stmts, ← exprCompile_isSome v, hl, hv]

theorem stmtListCompile_isSome (l : List Statement) :
    (stmtListCompile l).isSome = stmtListNoIfFor l := by
  cases l with
  | nil => rfl
  | cons s rest =>
    cases hs : s.compile <;> cases hr : stmtListCompile rest <;>
      simp [stmtListCompile, stmtListNoIfFor, ← stmtCompile_isSome s,
        ← stmtListCompile_isSome rest, hs, hr]

theorem exprListCompile_isSome (l : List Expression) :
    (exprListCompile l).isSome = exprListNoIfFor l := by
  cases l with
  | nil => rfl
  | cons e rest =>
    cases he : e.compile <;> cases hr : exprListCompile rest <;>
      simp [exprListCompile, exprListNoIfFor, ← exprCompile_isSome e,
        ← exprListCompile_isSome rest, he, hr]
end

/-- Span-checking distributes over list concatenation. -/
theorem oxcStmtListSpansSynthetic_append (l1 l2 : List OxcStatement) :
    oxcStmtListSpansSynthetic (l1 ++ l2) =
      (oxcStmtListSpansSynthetic l1 && oxcStmtListSpansSynthetic l2) := by
  induction l1 with
  | nil => simp [oxcStmtListSpansSynthetic]
  | cons s rest ih => simp [oxcStmtListSpansSynthetic, ih, Bool.and_assoc]

/-! Every node the structural emitter constructs carries the synthetic span,
node kind by node kind. -/
mutual
theorem exprIntoOxc_spans (e : Expression) :
    (Expression.intoOxc e).spansSynthetic = true := by
  cases e with
  | IdentifierExpression i => rfl
  | LiteralExpression l => cases l <;> rfl
  | UnaryExpression op a =>
    simp [Expression.intoOxc, OxcExpression.spansSynthetic, Span.synthetic,
      Span.isSynthetic, exprIntoOxc_spans a]
  | InfixExpression op a b =>
    simp [Expression.intoOxc, OxcExpression.spansSynthetic, Span.synthetic,
      Span.isSynthetic, exprIntoOxc_spans a, exprIntoOxc_spans b]
  | ArrayExpression es =>
    simp [Expression.intoOxc, OxcExpression.spansSynthetic, Span.synthetic,
      Span.isSynthetic, exprListIntoOxc_spans es]
  | CallExpression c args =>
    simp [Expression.intoOxc, OxcExpression.spansSynthetic, Span.synthetic,
      Span.isSynthetic, exprIntoOxc_spans c, exprListIntoOxc_spans args]
  | MemberAccessExpression o f =>
    simp [Expression.intoOxc, OxcExpression.spansSynthetic, Span.synthetic,
      Span.isSynthetic, exprIntoOxc_spans o]
  | IndexExpression o i =>
    simp [Expression.intoOxc, OxcExpression.spansSynthetic, Span.synthetic,
      Span.isSynthetic, exprIntoOxc_spans o, exprIntoOxc_spans i]
  | BlockExpression b =>
    simp [Expression.intoOxc, iife, OxcExpression.spansSynthetic,
      oxcExprListSpansSynthetic, Span.synthetic, Span.isSynthetic,
      blockIntoOxcStatements_spans b]
  | IfExpression c t e =>
    simp [Expression.intoOxc, iife, OxcExpression.spansSynthetic,
      OxcStatement.spansSynthetic, oxcExprListSpansSynthetic,
      oxcStmtListSpansSynthetic, Span.synthetic, Span.isSynthetic,
      exprIntoOxc_spans c, blockIntoOxcStatements_spans t,
      optionBlockIntoOxcStatements_spans e]
  | ForExpression bd it bo =>
    simp [Expression.intoOxc, iife, OxcExpression.spansSynthetic,
      OxcStatement.spansSynthetic, oxcExprListSpansSynthetic,
      oxcStmtListSpansSynthetic, Span.synthetic, Span.isSynthetic,
      exprIntoOxc_spans it, blockIntoOxcStatements_spans bo]

theorem stmtIntoOxc_spans (s : Statement) :
    (Statement.intoOxc s).spansSynthetic = true := by
  cases s with
  | ExpressionStatement e h =>
    simp [Statement.intoOxc, OxcStatement.spansSynthetic, Span.synthetic,
      Span.isSynthetic, exprIntoOxc_spans e]
  | DeclarationStatement d =>
    cases d with
    | ConstDeclaration i e =>
      simp [Statement.intoOxc, OxcStatement.spansSynthetic, Span.synthetic,
        Span.isSynthetic, exprIntoOxc_spans e]
    | LetDeclaration i e =>
      simp [Statement.intoOxc, OxcStatement.spansSynthetic, Span.synthetic,
        Span.isSynthetic, exprIntoOxc_spans e]
    | FunctionDeclaration n ps b =>
      simp [Statement.intoOxc, OxcStatement.spansSynthetic, Span.synthetic,
        Span.isSynthetic, blockIntoOxcStatements_spans b]

theorem blockIntoOxcStatements_spans (b : Block) :
    oxcStmtListSpansSynthetic (Block.intoOxcStatements b) = true := by
  cases b with
  | mk stmts rv =>
    cases rv with
    | none =>
      simp [Block.intoOxcStatements, optionReturnIntoOxc,
        oxcStmtListSpansSynthetic_append, oxcStmtListSpansSynthetic,
        stmtListIntoOxc_spans stmts]
    | some v =>
      simp [Block.intoOxcStatements, optionReturnIntoOxc,
        oxcStmtListSpansSynthetic_append, oxcStmtListSpansSynthetic,
        OxcStatement.spansSynthetic, oxcOptionExprSpansSynthetic,
        Span.synthetic, Span.isSynthetic,
        stmtListIntoOxc_spans stmts, exprIntoOxc_spans v]

theorem optionBlockIntoOxcStatements_spans (e : Option Block) :
    oxcStmtListSpansSynthetic (optionBlockIntoOxcStatements e) = true := by
  cases e with
  | none => rfl
  | some b =>
    simp [optionBlockIntoOxcStatements, blockIntoOxcStatements_spans b]

theorem stmtListIntoOxc_spans (l : List Statement) :
    oxcStmtListSpansSynthetic (stmtListIntoOxc l) = true := by
  cases l with
  | nil => rfl
  | cons s rest =>
    simp [stmtListIntoOxc, oxcStmtListSpansSynthetic, stmtIntoOxc_spans s,
      stmtListIntoOxc_spans rest]

theorem exprListIntoOxc_spans (l : List Expression) :
    oxcExprListSpansSynthetic (exprListIntoOxc l) = true := by
  cases l with
  | nil => rfl
  | cons e rest =>
    simp [exprListIntoOxc, oxcExprListSpansSynthetic, exprIntoOxc_spans e,
      exprListIntoOxc_spans rest]
end

/-- C1: for every block expression with non-empty statements and a present
return value `V`, compiled by the textual emitter in statement position, the
output declares `let return_value = undefined;`, opens a brace group holding
the compiled statements in order, assigns `return_value = <compiled V>;` as
the last line inside the braces, closes the group, and ends with the
statement's newline — independent of what the statements are. -/
theorem block_value_hoisting
    (stmts : List Statement) (v : Expression) (hsem : Bool)
    (vOut : JavascriptCompilationOutput) (stmtsCode : String)
    (hne : stmts ≠ [])
    (hv : v.compile = some vOut)
    (hs : stmtListCompile stmts = some stmtsCode) :
    Statement.compile
        (.ExpressionStatement (.BlockExpression (.mk stmts (some v))) hsem) =
      some { code := "let return_value = undefined;\n\x7b\n" ++ stmtsCode ++
               "return_value = " ++ vOut.code ++ ";\n\x7d" ++ "\n" } := by
  cases stmts with
  | nil => exact absurd rfl hne
  | cons s rest =>
    simp [Statement.compile, Expression.compile, hv, hs, build_block]

/-- Witness for C1 at the repository's own `block_expression_with_statements`
test input: a block holding `const foo = 5;` with return value `foo`. -/
theorem block_value_hoisting_witness :
    Statement.compile
        (.ExpressionStatement
          (.BlockExpression (.mk
            [.DeclarationStatement (.ConstDeclaration "foo"
              (.LiteralExpression (.NumberLiteral "5")))]
            (some (.IdentifierExpression "foo")))) true) =
      some { code := "let return_value = undefined;\n\x7b\n" ++ "const foo = 5;\n" ++
               "return_value = " ++ "foo" ++ ";\n\x7d" ++ "\n" } :=
  block_value_hoisting
    [.DeclarationStatement (.ConstDeclaration "foo"
      (.LiteralExpression (.NumberLiteral "5")))]
    (.IdentifierExpression "foo") true
    { code := "foo", semicolon_allowed := true }
    "const foo = 5;\n" (by simp) (by rfl) (by rfl)

/-- C3: every compiled statement is the block-materialized code of its inner
expression or declaration, followed by exactly one `;` iff the inner record's
`semicolon_allowed` is true, followed by exactly one newline, with a fully
defaulted metadata record — regardless of statement kind. -/
theorem statement_termination
    (s : Statement) (r : JavascriptCompilationOutput)
    (h : statementInner s = some r) :
    Statement.compile s =
      some { code := build_block r false ++
               (if r.semicolon_allowed then ";" else "") ++ "\n",
             semicolon_allowed := false, is_block := false,
             evaluates_to := none } := by
  cases s with
  | ExpressionStatement e hsem =>
    simp only [statementInner] at h
    simp [Statement.compile, h]
  | DeclarationStatement d =>
    simp only [statementInner] at h
    simp [Statement.compile, h]

/-- Witness for C3 at the expression statement `5`. -/
theorem statement_termination_witness :
    Statement.compile
        (.ExpressionStatement (.LiteralExpression (.NumberLiteral "5")) true) =
      some { code := build_block { code := "5", semicolon_allowed := true } false ++
               (if ({ code := "5", semicolon_allowed := true } :
                     JavascriptCompilationOutput).semicolon_allowed
                then ";" else "") ++ "\n",
             semicolon_allowed := false, is_block := false,
             evaluates_to := none } :=
  statement_termination
    (.ExpressionStatement (.LiteralExpression (.NumberLiteral "5")) true)
    { code := "5", semicolon_allowed := true } (by rfl)

/-- C4: a block expression with an empty statement list compiles to exactly
`let return_value = <compiled return_value>;` when the return value is
present and `let return_value = undefined;` when it is absent, with
`is_block = false` (and every other flag defaulted) in the resulting record,
never a brace-wrapped form. -/
theorem empty_block_collapse :
    (∀ (v : Expression) (vOut : JavascriptCompilationOutput),
      v.compile = some vOut →
      Expression.compile (.BlockExpression (.mk [] (some v))) =
        some { code := "let return_value = " ++ vOut.code ++ ";",
               semicolon_allowed := false, is_block := false,
               evaluates_to := none }) ∧
    Expression.compile (.BlockExpression (.mk [] none)) =
      some { code := "let return_value = undefined;",
             semicolon_allowed := false, is_block := false,
             evaluates_to := none } := by
  constructor
  · intro v vOut hv
    simp [Expression.compile, hv]
  · rfl

/-- Witness for C4 at the repository's `block_expression_without_statements`
test input: an empty block with return value `5`. -/
theorem empty_block_collapse_witness :
    Expression.compile
        (.BlockExpression (.mk [] (some (.LiteralExpression (.NumberLiteral "5"))))) =
      some { code := "let return_value = " ++ "5" ++ ";",
             semicolon_allowed := false, is_block := false,
             evaluates_to := none } :=
  empty_block_collapse.1 (.LiteralExpression (.NumberLiteral "5"))
    { code := "5", semicolon_allowed := true } (by rfl)

/-- C5: a function declaration whose body block has a present return value
emits the body as a brace group whose final line is `return <compiled
return_value>;`; the hoisted `let return_value = undefined;` pattern is not
used for a function body. -/
theorem function_return_fidelity
    (name : String) (ps : List Parameter)
    (stmts : List Statement) (v : Expression)
    (vOut : JavascriptCompilationOutput) (stmtsCode : String)
    (hs : stmtListCompile stmts = some stmtsCode)
    (hv : v.compile = some vOut) :
    Declaration.compile (.FunctionDeclaration name ps (.mk stmts (some v))) =
      some { code := "function " ++ name ++ "(" ++ (parametersCompile ps).code ++ ") " ++
               ("\x7b\n" ++ stmtsCode ++ "return " ++ vOut.code ++ ";\n\x7d") } := by
  simp [Declaration.compile, Block.compile, hs, hv]

/-- Witness for C5 at the repository's `code_snippet` test input:
`function foo(bar, baz) { return bar + baz }`. -/
theorem function_return_fidelity_witness :
    Declaration.compile
        (.FunctionDeclaration "foo" [⟨"bar", "number"⟩, ⟨"baz", "number"⟩]
          (.mk [] (some (.InfixExpression .Plus
            (.IdentifierExpression "bar") (.IdentifierExpression "baz"))))) =
      some { code := "function " ++ "foo" ++ "(" ++
               (parametersCompile [⟨"bar", "number"⟩, ⟨"baz", "number"⟩]).code ++ ") " ++
               ("\x7b\n" ++ "" ++ "return " ++ "bar + baz" ++ ";\n\x7d") } :=
  function_return_fidelity "foo" [⟨"bar", "number"⟩, ⟨"baz", "number"⟩]
    [] (.InfixExpression .Plus (.IdentifierExpression "bar") (.IdentifierExpression "baz"))
    { code := "bar + baz", semicolon_allowed := true } "" (by rfl) (by rfl)

/-- C6: an Index expression first applies the block-materialization rule with
`force_into_value = true` to the compiled object sub-expression and embeds
the result as `object[index]`; and on a value-producing block record
(`is_block` true, `evaluates_to` present) that rule yields the hoisted form
with `;\nreturn_value` appended, making the construct a value expression. -/
theorem index_object_materialization :
    (∀ (o i : Expression) (oOut iOut : JavascriptCompilationOutput),
      o.compile = some oOut → i.compile = some iOut →
      Expression.compile (.IndexExpression o i) =
        some { code := build_block oOut true ++ "[" ++ iOut.code ++ "]",
               semicolon_allowed := true, is_block := false,
               evaluates_to := none }) ∧
    (∀ (r : JavascriptCompilationOutput) (v : String),
      r.is_block = true → r.evaluates_to = some v →
      build_block r true =
        "let return_value = undefined;\n\x7b\n" ++ r.code ++
          "return_value = " ++ v ++ ";\n\x7d" ++ ";\nreturn_value") := by
  constructor
  · intro o i oOut iOut ho hi
    simp [Expression.compile, ho, hi]
  · intro r v hb he
    simp [build_block, hb, he]

/-- Witness for C6: the object is a one-statement block with return value
`foo`, indexed by `0`; both conjuncts instantiated on it. -/
theorem index_object_materialization_witness :
    (Expression.compile
        (.IndexExpression
          (.BlockExpression (.mk
            [.DeclarationStatement (.ConstDeclaration "foo"
              (.LiteralExpression (.NumberLiteral "5")))]
            (some (.IdentifierExpression "foo"))))
          (.LiteralExpression (.NumberLiteral "0"))) =
      some { code := build_block
               { code := "const foo = 5;\n", semicolon_allowed := false,
                 is_block := true, evaluates_to := some "foo" } true ++
               "[" ++ "0" ++ "]",
             semicolon_allowed := true, is_block := false,
             evaluates_to := none }) ∧
    build_block
        { code := "const foo = 5;\n", semicolon_allowed := false,
          is_block := true, evaluates_to := some "foo" } true =
      "let return_value = undefined;\n\x7b\n" ++ "const foo = 5;\n" ++
        "return_value = " ++ "foo" ++ ";\n\x7d" ++ ";\nreturn_value" :=
  ⟨index_object_materialization.1
    (.BlockExpression (.mk
      [.DeclarationStatement (.ConstDeclaration "foo"
        (.LiteralExpression (.NumberLiteral "5")))]
      (some (.IdentifierExpression "foo"))))
    (.LiteralExpression (.NumberLiteral "0"))
    { code := "const foo = 5;\n", semicolon_allowed := false,
      is_block := true, evaluates_to := some "foo" }
    { code := "0", semicolon_allowed := true } (by rfl) (by rfl),
   index_object_materialization.2
    { code := "const foo = 5;\n", semicolon_allowed := false,
      is_block := true, evaluates_to := some "foo" } "foo" (by rfl) (by rfl)⟩

/-- C8: the textual emitter reproduces a NumberLiteral's text and a
BooleanLiteral's text verbatim, wraps a StringLiteral's text in exactly one
pair of double quotes with no other transformation, sets
`semicolon_allowed = true` in all three cases, and lifts the literal record
unchanged into the expression level. -/
theorem literal_idempotence :
    (∀ n : String, Literal.compile (.NumberLiteral n) =
      { code := n, semicolon_allowed := true, is_block := false,
        evaluates_to := none }) ∧
    (∀ s : String, Literal.compile (.StringLiteral s) =
      { code := "\"" ++ s ++ "\"", semicolon_allowed := true,
        is_block := false, evaluates_to := none }) ∧
    (∀ b : Bool, Literal.compile (.BooleanLiteral b) =
      { code := if b then "true" else "false", semicolon_allowed := true,
        is_block := false, evaluates_to := none }) ∧
    (∀ lit : Literal, Expression.compile (.LiteralExpression lit) =
      some (Literal.compile lit)) := by
  refine ⟨fun n => rfl, fun s => rfl, fun b => rfl, fun lit => ?_⟩
  simp [Expression.compile]

/-- The code of a statement-list compilation is the in-order concatenation of
the codes of the individually compiled statements. -/
theorem stmtListCompile_eq_foldr (l : List Statement)
    (os : List JavascriptCompilationOutput)
    (h : compiledStatements l = some os) :
    stmtListCompile l =
      some ((os.map JavascriptCompilationOutput.code).foldr (fun a b => a ++ b) "") := by
  induction l generalizing os with
  | nil =>
    simp [compiledStatements] at h
    subst h
    rfl
  | cons s rest ih =>
    cases hs : s.compile with
    | none => simp [compiledStatements, hs] at h
    | some o =>
      cases hr : compiledStatements rest with
      | none => simp [compiledStatements, hs, hr] at h
      | some os' =>
        simp [compiledStatements, hs, hr] at h
        subst h
        simp [stmtListCompile, hs, ih os' hr]

/-- C7: the textual emitter's `compile(program)` is the in-order
concatenation of the compiled texts of its top-level statements — the n-th
statement's text appears strictly before the (n+1)-th's, with no reordering,
insertion, or omission. -/
theorem program_order_preservation (p : Program)
    (os : List JavascriptCompilationOutput)
    (h : compiledStatements p = some os) :
    JavascriptCompiler.compile p =
      some ((os.map JavascriptCompilationOutput.code).foldr (fun a b => a ++ b) "") := by
  simp [JavascriptCompiler.compile, Program.compile, stmtListCompile_eq_foldr p os h]

/-- Witness for C7 at the two-statement program `5; "foo";`. -/
theorem program_order_preservation_witness :
    JavascriptCompiler.compile
        [.ExpressionStatement (.LiteralExpression (.NumberLiteral "5")) true,
         .ExpressionStatement (.LiteralExpression (.StringLiteral "foo")) true] =
      some ((([{ code := "5;\n" }, { code := "\"foo\";\n" }] :
          List JavascriptCompilationOutput).map
          JavascriptCompilationOutput.code).foldr (fun a b => a ++ b) "") :=
  program_order_preservation
    [.ExpressionStatement (.LiteralExpression (.NumberLiteral "5")) true,
     .ExpressionStatement (.LiteralExpression (.StringLiteral "foo")) true]
    [{ code := "5;\n" }, { code := "\"foo\";\n" }] (by rfl)

/-- C2 (counterexample): compilation is not total for the textual emitter —
its expression match has no rule for an If expression, so compiling the
value-producing conditional `if true { }` yields no output record. -/
theorem emitter_totality_counterexample :
    Expression.compile
        (.IfExpression (.LiteralExpression (.BooleanLiteral true)) (.mk [] none) none) =
      none := rfl

/-- C2 (amended): the structural emitter's conversion has a matching rule
for every node variant of the data model, while the textual emitter has a
matching rule for every variant except the If and For expressions: its
compilation of an expression or statement succeeds exactly when the tree
contains no If or For expression. -/
theorem emitter_totality_characterization :
    (∀ e : Expression, (Expression.compile e).isSome = Expression.noIfFor e) ∧
    (∀ s : Statement, (Statement.compile s).isSome = Statement.noIfFor s) ∧
    (∀ p : Program, ∃ q : OxcProgram, Program.intoOxc p = q) :=
  ⟨exprCompile_isSome, stmtCompile_isSome, fun p => ⟨Program.intoOxc p, rfl⟩⟩

/-- C10: every target-AST node the structural emitter constructs — the
program node, statements, declarations, expressions, and the nodes of the
IIFE wrapper — carries the synthetic empty span `(0, 0)`; no conversion
propagates a source position. -/
theorem structural_spans_synthetic (p : Program) :
    (Program.intoOxc p).spansSynthetic = true := by
  simp [Program.intoOxc, OxcProgram.spansSynthetic, Span.synthetic,
    Span.isSynthetic, stmtListIntoOxc_spans p]
